/-
Verification of the state_helper CPU on/offline governor
(drivers/soc/qcom/state_helper.c).

The driver is embedded shallowly:
  - the configuration struct state_helper and its compiled-in defaults;
  - the live per-core online/offline state as a list of booleans indexed
    by core id (index c online iff entry c is true), with the platform
    hotplug primitives cpu_online, num_online_cpus, cpu_down and cpu_up;
    cpu_down and cpu_up take a success oracle (ok : Nat -> Bool) because
    the platform may refuse an individual transition, whose return value
    the driver ignores;
  - state_helper_work as a pure function from (configuration, oracles,
    suspend flag, core state) to (new core state, list of transition
    requests issued, in order);
  - state_helper_stop restricted to its core-restoration sweep (the
    notifier unregistration and work-queue draining have no effect on
    core state);
  - the sysfs store handlers as functions from (configuration, parse
    result of the written buffer, byte count) to (return value, new
    configuration, side effect performed).
-/
import Mathlib

set_option maxHeartbeats 1000000

/-- Compiled-in default for helper.enabled (the C macro HELPER_ENABLED). -/
def HELPER_ENABLED : Nat := 0

/-- Compiled-in suspend floor (the C macro DEFAULT_SUSP_CPUS). -/
def DEFAULT_SUSP_CPUS : Nat := 1

/-- Compiled-in default for helper.debug (the C macro DEBUG_MASK). -/
def DEBUG_MASK : Nat := 1

/-- Kernel error number for invalid argument. -/
def EINVAL : Int := 22

/-- Kernel notifier return value. -/
def NOTIFY_OK : Nat := 1

/-- The configuration store: struct state_helper from the source. -/
structure state_helper where
  enabled : Nat
  max_cpus_online : Nat
  debug : Nat
deriving DecidableEq, Repr

/-- The static initializer of the global variable helper, with NR_CPUS a
parameter (DEFAULT_MAX_CPUS_ONLINE is defined as NR_CPUS). -/
def helper (NR_CPUS : Nat) : state_helper :=
  { enabled := HELPER_ENABLED
    max_cpus_online := NR_CPUS
    debug := DEBUG_MASK }

/-- Live core state: entry c is true iff core c is online.  The length of
the list is the number of possible cores (NR_CPUS / nr_cpu_ids). -/
abbrev CoreState := List Bool

/-- cpu_online(c): a core id outside the possible range is never online. -/
def cpu_online (s : CoreState) (c : Nat) : Bool := s.getD c false

/-- num_online_cpus(). -/
def num_online_cpus (s : CoreState) : Nat := s.count true

/-- cpu_down(c): the platform may refuse (ok c = false), in which case the
core state is unchanged; the driver ignores the return value. -/
def cpu_down (ok : Nat → Bool) (s : CoreState) (c : Nat) : CoreState :=
  if ok c then s.set c false else s

/-- cpu_up(c): the platform may refuse (ok c = false), in which case the
core state is unchanged; the driver ignores the return value. -/
def cpu_up (ok : Nat → Bool) (s : CoreState) (c : Nat) : CoreState :=
  if ok c then s.set c true else s

/-- A hotplug transition request issued to the platform. -/
inductive Req where
  | down : Nat → Req
  | up : Nat → Req
deriving DecidableEq, Repr

/-- The core id a request is about. -/
def Req.cpu : Req → Nat
  | .down c => c
  | .up c => c

/-- Whether a request asks a core to go offline. -/
def Req.isDown : Req → Bool
  | .down _ => true
  | .up _ => false

/-- Whether a request asks a core to come online. -/
def Req.isUp : Req → Bool
  | .down _ => false
  | .up _ => true

/-- The target_cpus computation at the top of state_helper_work:
if (state_suspended) target_cpus = DEFAULT_SUSP_CPUS; else
target_cpus = helper.max_cpus_online. -/
def target_cpus (cfg : state_helper) (state_suspended : Bool) : Nat :=
  if state_suspended then DEFAULT_SUSP_CPUS else cfg.max_cpus_online

/-- The offline branch of state_helper_work: for_each_online_cpu(cpu)
{ if (cpu == 0) continue; cpu_down(cpu);
  if (target_cpus >= num_online_cpus()) break; }.
for_each_online_cpu reads the live online mask at each step, which over
an ascending traversal of all possible core ids is the online test below;
cpus is instantiated with List.range of the number of possible cores. -/
def offline_scan (ok : Nat → Bool) (target : Nat) :
    List Nat → CoreState → CoreState × List Req
  | [], s => (s, [])
  | c :: cpus, s =>
    if cpu_online s c then
      if c = 0 then offline_scan ok target cpus s
      else if target ≥ num_online_cpus (cpu_down ok s c) then
        (cpu_down ok s c, [Req.down c])
      else
        ((offline_scan ok target cpus (cpu_down ok s c)).1,
          Req.down c :: (offline_scan ok target cpus (cpu_down ok s c)).2)
    else offline_scan ok target cpus s

/-- The online branch of state_helper_work: for_each_possible_cpu(cpu)
{ if (target_cpus <= num_online_cpus()) break;
  if (!cpu_online(cpu)) cpu_up(cpu); }. -/
def online_scan (ok : Nat → Bool) (target : Nat) :
    List Nat → CoreState → CoreState × List Req
  | [], s => (s, [])
  | c :: cpus, s =>
    if target ≤ num_online_cpus s then (s, [])
    else if cpu_online s c then online_scan ok target cpus s
    else
      ((online_scan ok target cpus (cpu_up ok s c)).1,
        Req.up c :: (online_scan ok target cpus (cpu_up ok s c)).2)

/-- state_helper_work: computes target_cpus from the suspend flag and the
configuration, then runs the offline branch, the online branch, or the
target-already-achieved early return.  Returns the new core state and the
transition requests issued, in order.  downOk and upOk are the platform
acceptance oracles for cpu_down and cpu_up. -/
def state_helper_work (cfg : state_helper) (downOk upOk : Nat → Bool)
    (state_suspended : Bool) (s : CoreState) : CoreState × List Req :=
  if target_cpus cfg state_suspended < num_online_cpus s then
    offline_scan downOk (target_cpus cfg state_suspended) (List.range s.length) s
  else if target_cpus cfg state_suspended > num_online_cpus s then
    online_scan upOk (target_cpus cfg state_suspended) (List.range s.length) s
  else (s, [])

/-- The core-restoration sweep of state_helper_stop:
for_each_possible_cpu(cpu) if (!cpu_online(cpu)) cpu_up(cpu). -/
def stop_scan (ok : Nat → Bool) : List Nat → CoreState → CoreState × List Req
  | [], s => (s, [])
  | c :: cpus, s =>
    if cpu_online s c then stop_scan ok cpus s
    else
      ((stop_scan ok cpus (cpu_up ok s c)).1,
        Req.up c :: (stop_scan ok cpus (cpu_up ok s c)).2)

/-- state_helper_stop: after unregistering the state notifier and
draining/cancelling the pending work (neither touches core state), it
wakes up every core that is not online. -/
def state_helper_stop (ok : Nat → Bool) (s : CoreState) : CoreState × List Req :=
  stop_scan ok (List.range s.length) s

/-- state_notifier_callback: if (!helper.enabled) return NOTIFY_OK;
reschedule_work(); return NOTIFY_OK.  Returns the notifier return value
and whether reschedule_work was invoked. -/
def state_notifier_callback (cfg : state_helper) : Nat × Bool :=
  if cfg.enabled = 0 then (NOTIFY_OK, false)
  else (NOTIFY_OK, true)

/-- The lifecycle side effect a store handler performs. -/
inductive LifecycleAction where
  | noop : LifecycleAction
  | start : LifecycleAction
  | stop : LifecycleAction
deriving DecidableEq, Repr

/-- store_enabled: parses the buffer with sscanf "%u" (parsed = none when
sscanf does not convert one item), rejects values above 1 (the val < 0
test is vacuous on an unsigned), returns count unchanged-config when the
value equals the stored one, and otherwise stores it and invokes
state_helper_start or state_helper_stop. -/
def store_enabled (cfg : state_helper) (parsed : Option Nat) (count : Nat) :
    Except Int Nat × state_helper × LifecycleAction :=
  match parsed with
  | none => (Except.error (-EINVAL), cfg, LifecycleAction.noop)
  | some val =>
    if val > 1 then (Except.error (-EINVAL), cfg, LifecycleAction.noop)
    else if val = cfg.enabled then (Except.ok count, cfg, LifecycleAction.noop)
    else if val ≠ 0 then
      (Except.ok count, { cfg with enabled := val }, LifecycleAction.start)
    else
      (Except.ok count, { cfg with enabled := val }, LifecycleAction.stop)

/-- store_max_cpus_online: parses the buffer with sscanf "%u", rejects
val < 1 and val > NR_CPUS with -EINVAL, otherwise stores the value and,
if the governor is enabled, calls reschedule_work (the returned Bool). -/
def store_max_cpus_online (NR_CPUS : Nat) (cfg : state_helper)
    (parsed : Option Nat) (count : Nat) :
    Except Int Nat × state_helper × Bool :=
  match parsed with
  | none => (Except.error (-EINVAL), cfg, false)
  | some val =>
    if val < 1 ∨ val > NR_CPUS then (Except.error (-EINVAL), cfg, false)
    else if ({ cfg with max_cpus_online := val } : state_helper).enabled ≠ 0 then
      (Except.ok count, { cfg with max_cpus_online := val }, true)
    else
      (Except.ok count, { cfg with max_cpus_online := val }, false)

/-- The target calculator as the specification words it:
compute_target(suspended, max_online) is 1 when suspended (the suspend
floor) and max_online otherwise.  Spec-side definition, to be compared
with target_cpus extracted from the source. -/
def compute_target (suspended : Bool) (max_online : Nat) : Nat :=
  if suspended then 1 else max_online

/-- The max_online store handler as the specification words it: the write
succeeds exactly when the buffer parses to an integer in [1, total];
rejection mutates nothing; success stores the value and schedules a
reconciliation pass exactly when the governor is enabled.  Spec-side
definition, to be compared with store_max_cpus_online from the source. -/
def store_max_spec (total : Nat) (cfg : state_helper)
    (parsed : Option Nat) (count : Nat) :
    Except Int Nat × state_helper × Bool :=
  match parsed with
  | some v =>
    if 1 ≤ v ∧ v ≤ total then
      (Except.ok count, { cfg with max_cpus_online := v },
        decide (cfg.enabled ≠ 0))
    else (Except.error (-EINVAL), cfg, false)
  | none => (Except.error (-EINVAL), cfg, false)

/-! ### Basic facts about the core-state primitives -/

theorem cpu_online_lt_length {s : CoreState} {c : Nat}
    (h : cpu_online s c = true) : c < s.length := by
  by_contra hc
  push_neg at hc
  simp [cpu_online, List.getD_eq_getElem?_getD, List.getElem?_eq_none hc] at h

theorem cpu_online_set_ne {s : CoreState} {c d : Nat} (b : Bool) (h : c ≠ d) :
    cpu_online (s.set c b) d = cpu_online s d := by
  simp [cpu_online, List.getD_eq_getElem?_getD, List.getElem?_set_ne h]

theorem cpu_online_set_self {s : CoreState} {c : Nat} (b : Bool)
    (h : c < s.length) : cpu_online (s.set c b) c = b := by
  simp [cpu_online, List.getD_eq_getElem?_getD, List.getElem?_set_self h]

theorem count_set_false {s : CoreState} {c : Nat}
    (h : cpu_online s c = true) :
    num_online_cpus (s.set c false) + 1 = num_online_cpus s := by
  induction s generalizing c with
  | nil => simp [cpu_online] at h
  | cons a t ih =>
    cases c with
    | zero =>
      have ha : a = true := by simpa [cpu_online] using h
      subst ha
      simp [num_online_cpus, List.count_cons]
    | succ n =>
      have h2 : cpu_online t n = true := by simpa [cpu_online] using h
      have h3 := ih h2
      simp only [num_online_cpus, List.set, List.count_cons] at h3 ⊢
      omega

theorem count_set_true {s : CoreState} {c : Nat}
    (h : cpu_online s c = false) (hc : c < s.length) :
    num_online_cpus (s.set c true) = num_online_cpus s + 1 := by
  induction s generalizing c with
  | nil => simp at hc
  | cons a t ih =>
    cases c with
    | zero =>
      have ha : a = false := by simpa [cpu_online] using h
      subst ha
      simp [num_online_cpus, List.count_cons]
    | succ n =>
      have h2 : cpu_online t n = false := by simpa [cpu_online] using h
      have hn : n < t.length := by simpa using hc
      have h3 := ih h2 hn
      simp only [num_online_cpus, List.set, List.count_cons] at h3 ⊢
      omega

theorem count_le_len (s : CoreState) : num_online_cpus s ≤ s.length :=
  List.count_le_length true s

theorem countP_range_online (s : CoreState) :
    (List.range s.length).countP (fun c => cpu_online s c) = s.count true := by
  induction s with
  | nil => simp
  | cons a t ih =>
    rw [show (a :: t).length = t.length + 1 from rfl, List.range_succ_eq_map,
      List.countP_cons]
    simp only [List.countP_map]
    have hcomp : (List.range t.length).countP
        ((fun c => cpu_online (a :: t) c) ∘ Nat.succ)
        = (List.range t.length).countP (fun c => cpu_online t c) := by
      apply List.countP_congr
      intro x _
      simp [cpu_online, Function.comp]
    rw [hcomp, ih]
    cases a <;> simp [cpu_online, List.count_cons]

theorem countP_range_offline (s : CoreState) :
    (List.range s.length).countP (fun c => !cpu_online s c)
      = s.length - s.count true := by
  have h1 := List.length_eq_countP_add_countP
    (p := fun c => cpu_online s c) (l := List.range s.length)
  have h2 : (List.range s.length).countP (fun a => ¬(cpu_online s a = true))
      = (List.range s.length).countP (fun c => !cpu_online s c) := by
    apply List.countP_congr
    intro x _
    simp
  have h3 := countP_range_online s
  rw [List.length_range] at h1
  omega

theorem countP_range_cand (a : Bool) (t : List Bool) :
    (List.range (a :: t).length).countP
      (fun c => cpu_online (a :: t) c && decide (c ≠ 0)) = t.count true := by
  rw [show (a :: t).length = t.length + 1 from rfl, List.range_succ_eq_map,
    List.countP_cons]
  simp only [List.countP_map]
  have hcomp : (List.range t.length).countP
      ((fun c => cpu_online (a :: t) c && decide (c ≠ 0)) ∘ Nat.succ)
      = (List.range t.length).countP (fun c => cpu_online t c) := by
    apply List.countP_congr
    intro x _
    simp [cpu_online, Function.comp]
  rw [hcomp, countP_range_online]
  simp

/-! ### Step lemmas for cpu_down / cpu_up -/

theorem cpu_down_online_ne (ok : Nat → Bool) {s : CoreState} {c d : Nat}
    (h : c ≠ d) : cpu_online (cpu_down ok s c) d = cpu_online s d := by
  unfold cpu_down
  split
  · exact cpu_online_set_ne _ h
  · rfl

theorem cpu_up_online_ne (ok : Nat → Bool) {s : CoreState} {c d : Nat}
    (h : c ≠ d) : cpu_online (cpu_up ok s c) d = cpu_online s d := by
  unfold cpu_up
  split
  · exact cpu_online_set_ne _ h
  · rfl

theorem cpu_up_mono (ok : Nat → Bool) {s : CoreState} {c d : Nat}
    (h : cpu_online s d = true) : cpu_online (cpu_up ok s c) d = true := by
  unfold cpu_up
  split
  · by_cases hcd : c = d
    · subst hcd
      exact cpu_online_set_self _ (cpu_online_lt_length h)
    · rw [cpu_online_set_ne _ hcd]
      exact h
  · exact h

theorem cpu_down_length (ok : Nat → Bool) (s : CoreState) (c : Nat) :
    (cpu_down ok s c).length = s.length := by
  unfold cpu_down
  split <;> simp

theorem cpu_up_length (ok : Nat → Bool) (s : CoreState) (c : Nat) :
    (cpu_up ok s c).length = s.length := by
  unfold cpu_up
  split <;> simp

/-! ### Shape of the request traces -/

theorem offline_scan_zero (ok : Nat → Bool) (target : Nat) :
    ∀ (cpus : List Nat) (s : CoreState),
      cpu_online (offline_scan ok target cpus s).1 0 = cpu_online s 0 := by
  intro cpus
  induction cpus with
  | nil => intro s; simp [offline_scan]
  | cons c cpus ih =>
    intro s
    simp only [offline_scan]
    by_cases h1 : cpu_online s c
    · simp only [h1, if_true]
      by_cases h2 : c = 0
      · rw [if_pos h2, ih]
      · rw [if_neg h2]
        by_cases h3 : target ≥ num_online_cpus (cpu_down ok s c)
        · rw [if_pos h3]
          exact cpu_down_online_ne ok h2
        · rw [if_neg h3, ih, cpu_down_online_ne ok h2]
    · simp only [h1, Bool.false_eq_true, if_false]
      exact ih s

theorem offline_scan_no_zero (ok : Nat → Bool) (target : Nat) :
    ∀ (cpus : List Nat) (s : CoreState),
      ((offline_scan ok target cpus s).2).count (Req.down 0) = 0 := by
  intro cpus
  induction cpus with
  | nil => intro s; simp [offline_scan]
  | cons c cpus ih =>
    intro s
    simp only [offline_scan]
    by_cases h1 : cpu_online s c
    · simp only [h1, if_true]
      by_cases h2 : c = 0
      · rw [if_pos h2]; exact ih s
      · rw [if_neg h2]
        have hne : Req.down 0 ≠ Req.down c := by
          intro h
          exact h2 (by cases h; rfl)
        by_cases h3 : target ≥ num_online_cpus (cpu_down ok s c)
        · rw [if_pos h3]
          simp [List.count_cons_of_ne hne]
        · rw [if_neg h3]
          simp only [List.count_cons_of_ne hne]
          exact ih _
    · simp only [h1, Bool.false_eq_true, if_false]
      exact ih s

theorem offline_scan_all_down (ok : Nat → Bool) (target : Nat) :
    ∀ (cpus : List Nat) (s : CoreState),
      ((offline_scan ok target cpus s).2).countP Req.isUp = 0 := by
  intro cpus
  induction cpus with
  | nil => intro s; simp [offline_scan]
  | cons c cpus ih =>
    intro s
    simp only [offline_scan]
    by_cases h1 : cpu_online s c
    · simp only [h1, if_true]
      by_cases h2 : c = 0
      · rw [if_pos h2]; exact ih s
      · rw [if_neg h2]
        by_cases h3 : target ≥ num_online_cpus (cpu_down ok s c)
        · rw [if_pos h3]
          simp [Req.isUp]
        · rw [if_neg h3]
          rw [List.countP_cons_of_neg]
          · exact ih _
          · simp [Req.isUp]
    · simp only [h1, Bool.false_eq_true, if_false]
      exact ih s

theorem online_scan_all_up (ok : Nat → Bool) (target : Nat) :
    ∀ (cpus : List Nat) (s : CoreState),
      ((online_scan ok target cpus s).2).countP Req.isDown = 0 := by
  intro cpus
  induction cpus with
  | nil => intro s; simp [online_scan]
  | cons c cpus ih =>
    intro s
    simp only [online_scan]
    by_cases h1 : target ≤ num_online_cpus s
    · simp [h1]
    · rw [if_neg h1]
      by_cases h2 : cpu_online s c
      · simp only [h2, if_true]
        exact ih s
      · simp only [h2, Bool.false_eq_true, if_false]
        rw [List.countP_cons_of_neg]
        · exact ih _
        · simp [Req.isDown]

theorem stop_scan_all_up (ok : Nat → Bool) :
    ∀ (cpus : List Nat) (s : CoreState),
      ((stop_scan ok cpus s).2).countP Req.isDown = 0 := by
  intro cpus
  induction cpus with
  | nil => intro s; simp [stop_scan]
  | cons c cpus ih =>
    intro s
    simp only [stop_scan]
    by_cases h1 : cpu_online s c
    · simp only [h1, if_true]
      exact ih s
    · simp only [h1, Bool.false_eq_true, if_false]
      rw [List.countP_cons_of_neg]
      · exact ih _
      · simp [Req.isDown]

theorem count_down_zero_of_all_up {l : List Req}
    (h : l.countP Req.isDown = 0) : l.count (Req.down 0) = 0 := by
  rw [List.count_eq_zero]
  intro hm
  have h2 := List.countP_eq_zero.mp h _ hm
  simp [Req.isDown] at h2

theorem online_scan_mono (ok : Nat → Bool) (target : Nat) :
    ∀ (cpus : List Nat) (s : CoreState) (d : Nat),
      cpu_online s d = true →
      cpu_online (online_scan ok target cpus s).1 d = true := by
  intro cpus
  induction cpus with
  | nil => intro s d h; simpa [online_scan] using h
  | cons c cpus ih =>
    intro s d h
    simp only [online_scan]
    by_cases h1 : target ≤ num_online_cpus s
    · simpa [h1] using h
    · rw [if_neg h1]
      by_cases h2 : cpu_online s c
      · simp only [h2, if_true]
        exact ih s d h
      · simp only [h2, Bool.false_eq_true, if_false]
        exact ih _ d (cpu_up_mono ok h)

theorem stop_scan_mono (ok : Nat → Bool) :
    ∀ (cpus : List Nat) (s : CoreState) (d : Nat),
      cpu_online s d = true →
      cpu_online (stop_scan ok cpus s).1 d = true := by
  intro cpus
  induction cpus with
  | nil => intro s d h; simpa [stop_scan] using h
  | cons c cpus ih =>
    intro s d h
    simp only [stop_scan]
    by_cases h1 : cpu_online s c
    · simp only [h1, if_true]
      exact ih s d h
    · simp only [h1, Bool.false_eq_true, if_false]
      exact ih _ d (cpu_up_mono ok h)

theorem stop_scan_covers :
    ∀ (cpus : List Nat) (s : CoreState), (∀ c ∈ cpus, c < s.length) →
      ∀ d ∈ cpus, cpu_online (stop_scan (fun _ => true) cpus s).1 d = true := by
  intro cpus
  induction cpus with
  | nil => intro s _ d hd; simp at hd
  | cons c cpus ih =>
    intro s hlen d hd
    simp only [stop_scan]
    by_cases h1 : cpu_online s c
    · simp only [h1, if_true]
      rcases List.mem_cons.mp hd with h | h
      · subst h
        exact stop_scan_mono _ cpus s d h1
      · exact ih s (fun x hx => hlen x (List.mem_cons_of_mem c hx)) d h
    · simp only [h1, Bool.false_eq_true, if_false]
      have hcl : c < s.length := hlen c (List.mem_cons_self c cpus)
      have hup : cpu_online (cpu_up (fun _ => true) s c) c = true := by
        unfold cpu_up
        simp only [if_true]
        exact cpu_online_set_self _ hcl
      rcases List.mem_cons.mp hd with h | h
      · subst h
        exact stop_scan_mono _ cpus _ d hup
      · refine ih _ (fun x hx => ?_) d h
        rw [cpu_up_length]
        exact hlen x (List.mem_cons_of_mem c hx)

theorem stop_scan_trace (ok : Nat → Bool) :
    ∀ (cpus : List Nat) (s : CoreState), cpus.Nodup →
      (stop_scan ok cpus s).2
        = (cpus.filter (fun c => !cpu_online s c)).map Req.up := by
  intro cpus
  induction cpus with
  | nil => intro s _; simp [stop_scan]
  | cons c cpus ih =>
    intro s hnd
    simp only [stop_scan]
    have hnotmem : c ∉ cpus := (List.nodup_cons.mp hnd).1
    have htail : cpus.Nodup := (List.nodup_cons.mp hnd).2
    by_cases h1 : cpu_online s c
    · rw [List.filter_cons]
      have hpred : ¬((!cpu_online s c) = true) := by simp [h1]
      rw [if_neg hpred]
      simp only [h1, if_true]
      exact ih s htail
    · rw [List.filter_cons]
      have hpred : (!cpu_online s c) = true := by simp [h1]
      rw [if_pos hpred, List.map_cons]
      simp only [h1, Bool.false_eq_true, if_false]
      have hcongr : cpus.filter (fun x => !cpu_online (cpu_up ok s c) x)
          = cpus.filter (fun x => !cpu_online s x) := by
        apply List.filter_congr
        intro x hx
        have hxc : c ≠ x := fun h => hnotmem (h ▸ hx)
        rw [cpu_up_online_ne ok hxc]
      rw [ih _ htail, hcongr]

theorem offline_scan_sublist (ok : Nat → Bool) (target : Nat) :
    ∀ (cpus : List Nat) (s : CoreState),
      List.Sublist ((offline_scan ok target cpus s).2.map Req.cpu) cpus := by
  intro cpus
  induction cpus with
  | nil => intro s; simp [offline_scan]
  | cons c cpus ih =>
    intro s
    simp only [offline_scan]
    by_cases h1 : cpu_online s c
    · simp only [h1, if_true]
      by_cases h2 : c = 0
      · rw [if_pos h2]
        exact List.Sublist.cons _ (ih s)
      · rw [if_neg h2]
        by_cases h3 : target ≥ num_online_cpus (cpu_down ok s c)
        · rw [if_pos h3]
          simp only [List.map_cons, List.map_nil, Req.cpu]
          exact List.Sublist.cons₂ _ (List.nil_sublist cpus)
        · rw [if_neg h3]
          simp only [List.map_cons, Req.cpu]
          exact List.Sublist.cons₂ _ (ih _)
    · simp only [h1, Bool.false_eq_true, if_false]
      exact List.Sublist.cons _ (ih s)

/-! ### Convergence of the reconciliation loops -/

theorem offline_scan_lower (ok : Nat → Bool) (target : Nat) :
    ∀ (cpus : List Nat) (s : CoreState), target < num_online_cpus s →
      target ≤ num_online_cpus (offline_scan ok target cpus s).1 := by
  intro cpus
  induction cpus with
  | nil => intro s h; simp only [offline_scan]; omega
  | cons c cpus ih =>
    intro s h
    simp only [offline_scan]
    by_cases h1 : cpu_online s c
    · simp only [h1, if_true]
      by_cases h2 : c = 0
      · rw [if_pos h2]; exact ih s h
      · rw [if_neg h2]
        have hdown : num_online_cpus (cpu_down ok s c) + 1 = num_online_cpus s
            ∨ num_online_cpus (cpu_down ok s c) = num_online_cpus s := by
          unfold cpu_down
          by_cases h4 : ok c
          · left; rw [if_pos h4]; exact count_set_false h1
          · right; rw [if_neg h4]
        by_cases h3 : target ≥ num_online_cpus (cpu_down ok s c)
        · rw [if_pos h3]
          show target ≤ num_online_cpus (cpu_down ok s c)
          omega
        · rw [if_neg h3]
          show target ≤ num_online_cpus (offline_scan ok target cpus (cpu_down ok s c)).1
          exact ih _ (by omega)
    · simp only [h1, Bool.false_eq_true, if_false]
      exact ih s h

theorem offline_scan_reaches (target : Nat) :
    ∀ (cpus : List Nat) (s : CoreState), cpus.Nodup →
      target < num_online_cpus s →
      num_online_cpus s ≤ target
        + cpus.countP (fun c => cpu_online s c && decide (c ≠ 0)) →
      num_online_cpus (offline_scan (fun _ => true) target cpus s).1
        = target := by
  intro cpus
  induction cpus with
  | nil =>
    intro s _ h1 h2
    simp only [List.countP_nil] at h2
    omega
  | cons c cpus ih =>
    intro s hnd h1 h2
    have hnotmem : c ∉ cpus := (List.nodup_cons.mp hnd).1
    have htail := (List.nodup_cons.mp hnd).2
    simp only [offline_scan]
    by_cases ho : cpu_online s c
    · simp only [ho, if_true]
      by_cases hz : c = 0
      · subst hz
        rw [if_pos rfl]
        have hpa : ¬((fun c : Nat => cpu_online s c && decide (c ≠ 0)) 0 = true) := by
          simp
        rw [List.countP_cons_of_neg (fun c : Nat => cpu_online s c && decide (c ≠ 0)) cpus hpa] at h2
        exact ih s htail h1 h2
      · rw [if_neg hz]
        have hpa : ((fun x : Nat => cpu_online s x && decide (x ≠ 0)) c = true) := by
          simp [ho, hz]
        rw [List.countP_cons_of_pos (fun x : Nat => cpu_online s x && decide (x ≠ 0)) cpus hpa] at h2
        have hdown : cpu_down (fun _ => true) s c = s.set c false := by
          unfold cpu_down; simp
        have hcnt : num_online_cpus (s.set c false) + 1 = num_online_cpus s :=
          count_set_false ho
        by_cases h3 : target ≥ num_online_cpus (cpu_down (fun _ => true) s c)
        · rw [if_pos h3]
          rw [hdown] at h3
          show num_online_cpus (cpu_down (fun _ => true) s c) = target
          rw [hdown]
          omega
        · rw [if_neg h3]
          rw [hdown] at h3
          show num_online_cpus
            (offline_scan (fun _ => true) target cpus (cpu_down (fun _ => true) s c)).1 = target
          rw [hdown]
          have hcongr :
              cpus.countP (fun x => cpu_online (s.set c false) x && decide (x ≠ 0))
                = cpus.countP (fun x => cpu_online s x && decide (x ≠ 0)) := by
            apply List.countP_congr
            intro x hx
            have hcx : c ≠ x := fun hh => hnotmem (hh ▸ hx)
            rw [cpu_online_set_ne _ hcx]
          exact ih _ htail (by omega) (by rw [hcongr]; omega)
    · simp only [ho, Bool.false_eq_true, if_false]
      have hpa : ¬((fun x : Nat => cpu_online s x && decide (x ≠ 0)) c = true) := by
        simp [ho]
      rw [List.countP_cons_of_neg (fun x : Nat => cpu_online s x && decide (x ≠ 0)) cpus hpa] at h2
      exact ih s htail h1 h2

theorem online_scan_reaches (target : Nat) :
    ∀ (cpus : List Nat) (s : CoreState), cpus.Nodup →
      (∀ c ∈ cpus, c < s.length) →
      num_online_cpus s ≤ target →
      target ≤ num_online_cpus s + cpus.countP (fun c => !cpu_online s c) →
      num_online_cpus (online_scan (fun _ => true) target cpus s).1
        = target := by
  intro cpus
  induction cpus with
  | nil =>
    intro s _ _ h1 h2
    simp only [List.countP_nil] at h2
    simp only [online_scan]
    omega
  | cons c cpus ih =>
    intro s hnd hlen h1 h2
    have hnotmem := (List.nodup_cons.mp hnd).1
    have htail := (List.nodup_cons.mp hnd).2
    simp only [online_scan]
    by_cases hb : target ≤ num_online_cpus s
    · rw [if_pos hb]
      show num_online_cpus s = target
      omega
    · rw [if_neg hb]
      by_cases ho : cpu_online s c
      · simp only [ho, if_true]
        have hpa : ¬((fun x : Nat => !cpu_online s x) c = true) := by simp [ho]
        rw [List.countP_cons_of_neg (fun x : Nat => !cpu_online s x) cpus hpa] at h2
        exact ih s htail (fun x hx => hlen x (List.mem_cons_of_mem c hx)) h1 h2
      · simp only [ho, Bool.false_eq_true, if_false]
        have hpa : ((fun x : Nat => !cpu_online s x) c = true) := by simp [ho]
        rw [List.countP_cons_of_pos (fun x : Nat => !cpu_online s x) cpus hpa] at h2
        have hup : cpu_up (fun _ => true) s c = s.set c true := by
          unfold cpu_up; simp
        have hcl : c < s.length := hlen c (List.mem_cons_self c cpus)
        have hcnt : num_online_cpus (s.set c true) = num_online_cpus s + 1 :=
          count_set_true (by simpa using ho) hcl
        show num_online_cpus
          (online_scan (fun _ => true) target cpus (cpu_up (fun _ => true) s c)).1 = target
        rw [hup]
        have hcongr : cpus.countP (fun x => !cpu_online (s.set c true) x)
            = cpus.countP (fun x => !cpu_online s x) := by
          apply List.countP_congr
          intro x hx
          have hcx : c ≠ x := fun hh => hnotmem (hh ▸ hx)
          rw [cpu_online_set_ne _ hcx]
        refine ih _ htail ?_ (by omega) (by rw [hcongr]; omega)
        intro x hx
        rw [List.length_set]
        exact hlen x (List.mem_cons_of_mem c hx)

theorem offline_scan_dichotomy (ok : Nat → Bool) (target : Nat) :
    ∀ (cpus : List Nat) (s : CoreState), cpus.Nodup →
      target < num_online_cpus s →
      num_online_cpus (offline_scan ok target cpus s).1 = target ∨
        (offline_scan ok target cpus s).2.map Req.cpu
          = cpus.filter (fun c => decide (c ≠ 0) && cpu_online s c) := by
  intro cpus
  induction cpus with
  | nil => intro s _ _; right; simp [offline_scan]
  | cons c cpus ih =>
    intro s hnd h1
    have hnotmem : c ∉ cpus := (List.nodup_cons.mp hnd).1
    have htail := (List.nodup_cons.mp hnd).2
    simp only [offline_scan]
    by_cases ho : cpu_online s c
    · simp only [ho, if_true]
      by_cases hz : c = 0
      · subst hz
        rw [if_pos rfl]
        rcases ih s htail h1 with hl | hr
        · left; exact hl
        · right
          rw [List.filter_cons]
          have hpred : ¬((decide ((0:Nat) ≠ 0) && cpu_online s 0) = true) := by simp
          rw [if_neg hpred]
          exact hr
      · rw [if_neg hz]
        by_cases h3 : target ≥ num_online_cpus (cpu_down ok s c)
        · rw [if_pos h3]
          left
          show num_online_cpus (cpu_down ok s c) = target
          unfold cpu_down at h3 ⊢
          by_cases h4 : ok c
          · rw [if_pos h4] at h3 ⊢
            have hcnt := count_set_false ho
            omega
          · rw [if_neg h4] at h3 ⊢
            omega
        · rw [if_neg h3]
          have h1' : target < num_online_cpus (cpu_down ok s c) := by omega
          rcases ih _ htail h1' with hl | hr
          · left; exact hl
          · right
            show (Req.down c :: (offline_scan ok target cpus (cpu_down ok s c)).2).map Req.cpu
              = (c :: cpus).filter (fun x => decide (x ≠ 0) && cpu_online s x)
            rw [List.map_cons, List.filter_cons]
            have hpred : ((decide (c ≠ 0) && cpu_online s c) = true) := by
              simp [hz, ho]
            rw [if_pos hpred]
            rw [hr]
            show Req.cpu (Req.down c) ::
                cpus.filter (fun x => decide (x ≠ 0) && cpu_online (cpu_down ok s c) x)
              = c :: cpus.filter (fun x => decide (x ≠ 0) && cpu_online s x)
            have hcongr : cpus.filter (fun x => decide (x ≠ 0) && cpu_online (cpu_down ok s c) x)
                = cpus.filter (fun x => decide (x ≠ 0) && cpu_online s x) := by
              apply List.filter_congr
              intro x hx
              have hcx : c ≠ x := fun hh => hnotmem (hh ▸ hx)
              rw [cpu_down_online_ne ok hcx]
            rw [hcongr]
            rfl
    · simp only [ho, Bool.false_eq_true, if_false]
      rcases ih s htail h1 with hl | hr
      · left; exact hl
      · right
        rw [List.filter_cons]
        have hpred : ¬((decide (c ≠ 0) && cpu_online s c) = true) := by simp [ho]
        rw [if_neg hpred]
        exact hr

theorem offline_scan_req_online (ok : Nat → Bool) (target : Nat) :
    ∀ (cpus : List Nat) (s s₀ : CoreState), cpus.Nodup →
      (∀ c ∈ cpus, cpu_online s c = cpu_online s₀ c) →
      ∀ c ∈ (offline_scan ok target cpus s).2.map Req.cpu,
        cpu_online s₀ c = true := by
  intro cpus
  induction cpus with
  | nil => intro s s₀ _ _ c hc; simp [offline_scan] at hc
  | cons a cpus ih =>
    intro s s₀ hnd hag c hc
    have hnotmem : a ∉ cpus := (List.nodup_cons.mp hnd).1
    have htail := (List.nodup_cons.mp hnd).2
    simp only [offline_scan] at hc
    by_cases ho : cpu_online s a
    · simp only [ho, if_true] at hc
      by_cases hz : a = 0
      · rw [if_pos hz] at hc
        exact ih s s₀ htail (fun x hx => hag x (List.mem_cons_of_mem a hx)) c hc
      · rw [if_neg hz] at hc
        by_cases h3 : target ≥ num_online_cpus (cpu_down ok s a)
        · rw [if_pos h3] at hc
          simp only [List.map_cons, List.map_nil, Req.cpu, List.mem_singleton] at hc
          subst hc
          rw [← hag c (List.mem_cons_self c cpus)]
          exact ho
        · rw [if_neg h3] at hc
          simp only [List.map_cons, Req.cpu, List.mem_cons] at hc
          rcases hc with rfl | hc
          · rw [← hag c (List.mem_cons_self c cpus)]
            exact ho
          · refine ih _ s₀ htail ?_ c hc
            intro x hx
            have hax : a ≠ x := fun hh => hnotmem (hh ▸ hx)
            rw [cpu_down_online_ne ok hax]
            exact hag x (List.mem_cons_of_mem a hx)
    · simp only [ho, Bool.false_eq_true, if_false] at hc
      exact ih s s₀ htail (fun x hx => hag x (List.mem_cons_of_mem a hx)) c hc

/-! ### Pass-level helpers -/

theorem target_cpus_eq_compute (cfg : state_helper) (susp : Bool) :
    target_cpus cfg susp = compute_target susp cfg.max_cpus_online := rfl

theorem target_cpus_pos (cfg : state_helper) (susp : Bool)
    (h1 : 1 ≤ cfg.max_cpus_online) : 1 ≤ target_cpus cfg susp := by
  unfold target_cpus
  cases susp
  · simpa using h1
  · simp [DEFAULT_SUSP_CPUS]

theorem target_cpus_le (cfg : state_helper) (susp : Bool) (n : Nat)
    (h1 : 1 ≤ cfg.max_cpus_online) (h2 : cfg.max_cpus_online ≤ n) :
    target_cpus cfg susp ≤ n := by
  unfold target_cpus
  cases susp
  · simpa using h2
  · simp only [if_true, DEFAULT_SUSP_CPUS]
    omega

theorem state_helper_work_count (cfg : state_helper) (susp : Bool)
    (s : CoreState) (h1 : 1 ≤ cfg.max_cpus_online)
    (h2 : cfg.max_cpus_online ≤ s.length) :
    num_online_cpus
        (state_helper_work cfg (fun _ => true) (fun _ => true) susp s).1
      = target_cpus cfg susp := by
  have ht1 := target_cpus_pos cfg susp h1
  have ht2 := target_cpus_le cfg susp s.length h1 h2
  unfold state_helper_work
  by_cases hlt : target_cpus cfg susp < num_online_cpus s
  · rw [if_pos hlt]
    cases s with
    | nil =>
      exact absurd hlt (by simp [num_online_cpus])
    | cons a rest =>
      apply offline_scan_reaches _ _ _ (List.nodup_range _) hlt
      rw [countP_range_cand]
      have hc : num_online_cpus (a :: rest) ≤ rest.count true + 1 := by
        unfold num_online_cpus
        rw [List.count_cons]
        split <;> omega
      omega
  · rw [if_neg hlt]
    by_cases hgt : target_cpus cfg susp > num_online_cpus s
    · rw [if_pos hgt]
      apply online_scan_reaches _ _ _ (List.nodup_range _)
        (fun c hc => List.mem_range.mp hc) (by omega)
      rw [countP_range_offline]
      have hle := count_le_len s
      show target_cpus cfg susp ≤ num_online_cpus s + (s.length - s.count true)
      unfold num_online_cpus at hle ⊢
      omega
    · rw [if_neg hgt]
      show num_online_cpus s = target_cpus cfg susp
      omega

theorem state_helper_work_zero (cfg : state_helper) (dok uok : Nat → Bool)
    (susp : Bool) (s : CoreState) (h0 : cpu_online s 0 = true) :
    cpu_online (state_helper_work cfg dok uok susp s).1 0 = true := by
  unfold state_helper_work
  by_cases hlt : target_cpus cfg susp < num_online_cpus s
  · rw [if_pos hlt]
    rw [offline_scan_zero]
    exact h0
  · rw [if_neg hlt]
    by_cases hgt : target_cpus cfg susp > num_online_cpus s
    · rw [if_pos hgt]
      exact online_scan_mono _ _ _ _ _ h0
    · rw [if_neg hgt]
      exact h0

/-! ### Claims -/

/-- Claim C1, counterexample: the claim says a reconciliation pass with the
enabled flag false aborts immediately as a no-op performing no core
transitions.  In the code state_helper_work never reads helper.enabled: with
enabled = 0, suspend true and four cores online the pass still issues
offline requests. -/
theorem c1_counterexample :
    ¬ ((state_helper_work { enabled := 0, max_cpus_online := 4, debug := 1 }
        (fun _ => true) (fun _ => true) true [true, true, true, true]).2
      = []) := by
  decide

/-- Claim C1, amended: the enabled guard lives in the event dispatcher, not
in the pass.  state_helper_work ignores the enabled flag entirely (its
result is unchanged under any rewrite of the flag), while
state_notifier_callback invokes reschedule_work exactly when the flag is
nonzero, and returns NOTIFY_OK either way. -/
theorem c1_enabled_guard_in_dispatcher (cfg : state_helper) (e : Nat)
    (dok uok : Nat → Bool) (susp : Bool) (s : CoreState) :
    state_helper_work { cfg with enabled := e } dok uok susp s
        = state_helper_work cfg dok uok susp s
    ∧ (state_notifier_callback cfg).2 = decide (cfg.enabled ≠ 0)
    ∧ (state_notifier_callback cfg).1 = NOTIFY_OK := by
  refine ⟨rfl, ?_, ?_⟩
  · unfold state_notifier_callback
    by_cases h : cfg.enabled = 0
    · rw [if_pos h]
      simp [h]
    · rw [if_neg h]
      simp [h]
  · unfold state_notifier_callback
    split <;> rfl

/-- Claim C2: for every configuration, every refusal oracle, every suspend
flag and every live core state, a reconciliation pass never requests core 0
offline, and state_helper_stop issues no offline request at all (it only
requests cores online). -/
theorem c2_core0_never_requested_offline (cfg : state_helper)
    (dok uok ok : Nat → Bool) (susp : Bool) (s : CoreState) :
    (state_helper_work cfg dok uok susp s).2.count (Req.down 0) = 0
    ∧ (state_helper_stop ok s).2.countP Req.isDown = 0 := by
  constructor
  · unfold state_helper_work
    by_cases hlt : target_cpus cfg susp < num_online_cpus s
    · rw [if_pos hlt]
      exact offline_scan_no_zero dok _ _ s
    · rw [if_neg hlt]
      by_cases hgt : target_cpus cfg susp > num_online_cpus s
      · rw [if_pos hgt]
        exact count_down_zero_of_all_up (online_scan_all_up uok _ _ s)
      · rw [if_neg hgt]
        rfl
  · exact stop_scan_all_up ok _ s

/-- Claim C5: the target calculation at the top of state_helper_work is the
pure function compute_target of the suspend flag and max_online alone:
it yields the suspend floor DEFAULT_SUSP_CPUS = 1 when suspended and
max_online otherwise. -/
theorem c5_target_calculator_pure (cfg : state_helper) (susp : Bool)
    (m : Nat) :
    target_cpus cfg susp = compute_target susp cfg.max_cpus_online
    ∧ compute_target true m = DEFAULT_SUSP_CPUS
    ∧ DEFAULT_SUSP_CPUS = 1
    ∧ compute_target false m = m :=
  ⟨rfl, rfl, rfl, rfl⟩

/-- Claim C6: state_helper_stop requests exactly the cores that are not
online to come online, in ascending id order, whatever the refusal oracle,
and (with the platform accepting) afterwards every possible core is
online.  It takes no configuration input, so the result is independent of
configuration and prior target by construction. -/
theorem c6_stop_restores_all_cores (s : CoreState) (ok : Nat → Bool) :
    ((List.range s.length).all fun c =>
        cpu_online (state_helper_stop (fun _ => true) s).1 c) = true
    ∧ (state_helper_stop ok s).2
        = ((List.range s.length).filter (fun c => !cpu_online s c)).map
            Req.up := by
  constructor
  · rw [List.all_eq_true]
    intro c hc
    exact stop_scan_covers _ s (fun x hx => List.mem_range.mp hx) c hc
  · exact stop_scan_trace ok _ s (List.nodup_range _)

/-- Claim C7: store_max_cpus_online coincides with its specification
store_max_spec: the write succeeds exactly when the buffer parses to an
integer in the interval from 1 to NR_CPUS; a malformed or out-of-range
write returns -EINVAL and leaves the configuration untouched; a valid
write stores the value and reschedules the work exactly when the governor
is enabled. -/
theorem c7_store_max_cpus_online_refines_spec (NR_CPUS : Nat)
    (cfg : state_helper) (parsed : Option Nat) (count : Nat) :
    store_max_cpus_online NR_CPUS cfg parsed count
      = store_max_spec NR_CPUS cfg parsed count := by
  unfold store_max_cpus_online store_max_spec
  cases parsed with
  | none => rfl
  | some v =>
    dsimp only
    by_cases hv : v < 1 ∨ v > NR_CPUS
    · rw [if_pos hv]
      have hs : ¬(1 ≤ v ∧ v ≤ NR_CPUS) := by omega
      rw [if_neg hs]
    · rw [if_neg hv]
      have hs : 1 ≤ v ∧ v ≤ NR_CPUS := by omega
      rw [if_pos hs]
      by_cases he : cfg.enabled = 0
      · have hcond :
            ¬(({ cfg with max_cpus_online := v } : state_helper).enabled ≠ 0) := by
          simp [he]
        rw [if_neg hcond]
        simp [he]
      · have hcond :
            (({ cfg with max_cpus_online := v } : state_helper).enabled ≠ 0) := by
          simp [he]
        rw [if_pos hcond]
        simp [he]

/-- Claim C9, counterexample: the claim says the compiled-in default has
the governor enabled, but HELPER_ENABLED is 0, so the static initializer
of helper starts with the governor disabled (max_online and debug are as
claimed). -/
theorem c9_counterexample :
    ¬ ((helper 4).enabled ≠ 0 ∧ (helper 4).max_cpus_online = 4
        ∧ (helper 4).debug ≠ 0) := by
  decide

/-- Claim C9, amended: at module load the configuration store is
initialized to the compiled-in defaults enabled = 0 (disabled),
max_cpus_online = NR_CPUS (the total number of cores) and debug on. -/
theorem c9_amended_defaults (NR_CPUS : Nat) :
    (helper NR_CPUS).enabled = 0
    ∧ (helper NR_CPUS).max_cpus_online = NR_CPUS
    ∧ (helper NR_CPUS).debug = 1 :=
  ⟨rfl, rfl, rfl⟩

/-- Claim C10: writing the enabled setting with its current value (an
in-range value equal to the stored flag) is accepted, returns the byte
count, changes no configuration field and performs neither
state_helper_start nor state_helper_stop. -/
theorem c10_store_enabled_same_value_noop (cfg : state_helper) (v : Nat)
    (cnt : Nat) (h1 : v ≤ 1) (h2 : v = cfg.enabled) :
    store_enabled cfg (some v) cnt
      = (Except.ok cnt, cfg, LifecycleAction.noop) := by
  unfold store_enabled
  dsimp only
  have ha : ¬(v > 1) := by omega
  rw [if_neg ha, if_pos h2]

/-- Claim C10, witness: writing 0 to enabled while the default (disabled)
configuration is in effect succeeds and is a no-op. -/
theorem c10_witness :
    store_enabled (helper 4) (some 0) 7
      = (Except.ok 7, helper 4, LifecycleAction.noop) :=
  c10_store_enabled_same_value_noop (helper 4) 0 7 (by decide) (by decide)

/-- Claim C3: for 1 <= max_cpus_online <= total cores, either suspend
flag, and any reachable live core state (core 0 online, as the module
itself maintains), a pass with no platform refusals leaves the online
count exactly compute_target of the suspend flag and max_cpus_online,
that count is at least 1, and core 0 is online. -/
theorem c3_converged_pass_reaches_target (cfg : state_helper) (susp : Bool)
    (s : CoreState) (h1 : 1 ≤ cfg.max_cpus_online)
    (h2 : cfg.max_cpus_online ≤ s.length)
    (h0 : cpu_online s 0 = true) :
    num_online_cpus
        (state_helper_work cfg (fun _ => true) (fun _ => true) susp s).1
      = compute_target susp cfg.max_cpus_online
    ∧ 1 ≤ num_online_cpus
        (state_helper_work cfg (fun _ => true) (fun _ => true) susp s).1
    ∧ cpu_online
        (state_helper_work cfg (fun _ => true) (fun _ => true) susp s).1 0
      = true := by
  have hc := state_helper_work_count cfg susp s h1 h2
  have ht1 := target_cpus_pos cfg susp h1
  refine ⟨?_, ?_, state_helper_work_zero cfg _ _ susp s h0⟩
  · rw [hc]
    rfl
  · omega

/-- Claim C3, witness: four cores all online, max_cpus_online 4, suspend
true: the pass converges to one online core, core 0. -/
theorem c3_witness :
    num_online_cpus
        (state_helper_work { enabled := 1, max_cpus_online := 4, debug := 1 }
          (fun _ => true) (fun _ => true) true [true, true, true, true]).1
      = compute_target true 4
    ∧ 1 ≤ num_online_cpus
        (state_helper_work { enabled := 1, max_cpus_online := 4, debug := 1 }
          (fun _ => true) (fun _ => true) true [true, true, true, true]).1
    ∧ cpu_online
        (state_helper_work { enabled := 1, max_cpus_online := 4, debug := 1 }
          (fun _ => true) (fun _ => true) true [true, true, true, true]).1 0
      = true :=
  c3_converged_pass_reaches_target
    { enabled := 1, max_cpus_online := 4, debug := 1 } true
    [true, true, true, true] (by decide) (by decide) (by decide)

/-- Claim C4: when the target is below the live online count, the pass
issues only offline requests; the requested core ids are strictly
ascending (ascending id order, one at a time); core 0 is never requested;
every requested core was online; the live count never drops below the
target (the loop stops as soon as the target is reached, because it
re-checks the live count after each transition); and, for any refusal
oracle, either the final count equals the target or the loop visited
every online nonzero candidate (an individual refusal makes it continue
to the next candidate, never abort). -/
theorem c4_offline_branch_behavior (cfg : state_helper)
    (dok uok : Nat → Bool) (susp : Bool) (s : CoreState)
    (h : target_cpus cfg susp < num_online_cpus s) :
    (state_helper_work cfg dok uok susp s).2.countP Req.isUp = 0
    ∧ ((state_helper_work cfg dok uok susp s).2.map Req.cpu).Pairwise (· < ·)
    ∧ (state_helper_work cfg dok uok susp s).2.count (Req.down 0) = 0
    ∧ (((state_helper_work cfg dok uok susp s).2.map Req.cpu).all
        fun c => cpu_online s c) = true
    ∧ target_cpus cfg susp
        ≤ num_online_cpus (state_helper_work cfg dok uok susp s).1
    ∧ (num_online_cpus (state_helper_work cfg dok uok susp s).1
          = target_cpus cfg susp
        ∨ (state_helper_work cfg dok uok susp s).2.map Req.cpu
            = (List.range s.length).filter
                (fun c => decide (c ≠ 0) && cpu_online s c)) := by
  have hwork : state_helper_work cfg dok uok susp s
      = offline_scan dok (target_cpus cfg susp) (List.range s.length) s := by
    unfold state_helper_work
    rw [if_pos h]
  rw [hwork]
  refine ⟨offline_scan_all_down dok _ _ s, ?_, offline_scan_no_zero dok _ _ s,
    ?_, offline_scan_lower dok _ _ s h,
    offline_scan_dichotomy dok _ _ s (List.nodup_range _) h⟩
  · exact List.Pairwise.sublist (offline_scan_sublist dok _ _ s)
      (List.pairwise_lt_range _)
  · rw [List.all_eq_true]
    intro c hc
    exact offline_scan_req_online dok _ _ s s (List.nodup_range _)
      (fun _ _ => rfl) c hc

/-- Claim C4, witness: four cores online, target 2, the platform refusing
to offline core 1: the pass requests cores 1, 2, 3 in order, tolerates
the refusal of core 1, and still converges to the target of 2. -/
theorem c4_witness :
    (state_helper_work { enabled := 1, max_cpus_online := 2, debug := 1 }
        (fun c => decide (c ≠ 1)) (fun _ => true) false
        [true, true, true, true]).2.countP Req.isUp = 0
    ∧ ((state_helper_work { enabled := 1, max_cpus_online := 2, debug := 1 }
        (fun c => decide (c ≠ 1)) (fun _ => true) false
        [true, true, true, true]).2.map Req.cpu).Pairwise (· < ·)
    ∧ (state_helper_work { enabled := 1, max_cpus_online := 2, debug := 1 }
        (fun c => decide (c ≠ 1)) (fun _ => true) false
        [true, true, true, true]).2.count (Req.down 0) = 0
    ∧ (((state_helper_work { enabled := 1, max_cpus_online := 2, debug := 1 }
        (fun c => decide (c ≠ 1)) (fun _ => true) false
        [true, true, true, true]).2.map Req.cpu).all
          fun c => cpu_online [true, true, true, true] c) = true
    ∧ target_cpus { enabled := 1, max_cpus_online := 2, debug := 1 } false
        ≤ num_online_cpus
            (state_helper_work { enabled := 1, max_cpus_online := 2, debug := 1 }
              (fun c => decide (c ≠ 1)) (fun _ => true) false
              [true, true, true, true]).1
    ∧ (num_online_cpus
          (state_helper_work { enabled := 1, max_cpus_online := 2, debug := 1 }
            (fun c => decide (c ≠ 1)) (fun _ => true) false
            [true, true, true, true]).1
          = target_cpus { enabled := 1, max_cpus_online := 2, debug := 1 } false
        ∨ (state_helper_work { enabled := 1, max_cpus_online := 2, debug := 1 }
            (fun c => decide (c ≠ 1)) (fun _ => true) false
            [true, true, true, true]).2.map Req.cpu
            = (List.range ([true, true, true, true] : CoreState).length).filter
                (fun c => decide (c ≠ 0)
                  && cpu_online [true, true, true, true] c)) :=
  c4_offline_branch_behavior { enabled := 1, max_cpus_online := 2, debug := 1 }
    (fun c => decide (c ≠ 1)) (fun _ => true) false [true, true, true, true]
    (by decide)

/-- A pass whose target equals the live online count returns through the
target-already-achieved branch: same state, no requests. -/
theorem state_helper_work_noop (cfg : state_helper) (dok uok : Nat → Bool)
    (susp : Bool) (s : CoreState)
    (heq : target_cpus cfg susp = num_online_cpus s) :
    state_helper_work cfg dok uok susp s = (s, []) := by
  unfold state_helper_work
  have ha : ¬(target_cpus cfg susp < num_online_cpus s) := by omega
  have hb : ¬(target_cpus cfg susp > num_online_cpus s) := by omega
  rw [if_neg ha, if_neg hb]

/-- Claim C8: reconciliation is idempotent.  If the target already equals
the live count the pass changes nothing and issues no request, and a
second pass run right after a first one (same configuration and suspend
flag, no refusals, reachable configuration) issues no requests. -/
theorem c8_reconcile_idempotent (cfg : state_helper) (susp : Bool)
    (s : CoreState) (h1 : 1 ≤ cfg.max_cpus_online)
    (h2 : cfg.max_cpus_online ≤ s.length) :
    (target_cpus cfg susp = num_online_cpus s →
        state_helper_work cfg (fun _ => true) (fun _ => true) susp s = (s, []))
    ∧ (state_helper_work cfg (fun _ => true) (fun _ => true) susp
        ((state_helper_work cfg (fun _ => true) (fun _ => true) susp s).1)).2
      = [] := by
  constructor
  · intro heq
    exact state_helper_work_noop cfg _ _ susp s heq
  · have hc := state_helper_work_count cfg susp s h1 h2
    rw [state_helper_work_noop cfg _ _ susp _ hc.symm]

/-- Claim C8, witness: four cores online, target 2: after the first pass
converges, a second pass issues no requests. -/
theorem c8_witness :
    (target_cpus { enabled := 1, max_cpus_online := 2, debug := 1 } false
        = num_online_cpus [true, true, true, true] →
      state_helper_work { enabled := 1, max_cpus_online := 2, debug := 1 }
          (fun _ => true) (fun _ => true) false [true, true, true, true]
        = ([true, true, true, true], []))
    ∧ (state_helper_work { enabled := 1, max_cpus_online := 2, debug := 1 }
        (fun _ => true) (fun _ => true) false
        ((state_helper_work { enabled := 1, max_cpus_online := 2, debug := 1 }
          (fun _ => true) (fun _ => true) false
          [true, true, true, true]).1)).2 = [] :=
  c8_reconcile_idempotent { enabled := 1, max_cpus_online := 2, debug := 1 }
    false [true, true, true, true] (by decide) (by decide)
